import Mathlib

/-!
Verification of the task_assistant recurring-task scheduler
(`custom_components/task_assistant/task.py`).

The scheduler works on Python naive `datetime` values.  We embed a datetime
as a calendar date (proleptic Gregorian, unbounded years) together with the
number of microseconds since midnight.  Python's `datetime`/`date` arithmetic
is exact timeline arithmetic performed through the proleptic-Gregorian
ordinal; here `Date.succ`/`Date.pred` advance one calendar day and
`Date.addDays` iterates them, which is the same function on dates, and
`Date.toRD` is the standard days-from-civil conversion (rata die relative to
1970-01-01), used for `date.weekday()` and for `timedelta` subtraction.
Python `//` and `%` on ints (positive divisor) agree with Lean's `Int`
division and modulo, which round toward negative infinity for positive
divisors.
-/

namespace TaskAssistant

def usecPerDay : Nat := 86400000000

def usecPerHour : Nat := 3600000000

/-- Leap year rule of the Gregorian calendar (Python `calendar.isleap`). -/
def isLeap (y : Int) : Prop := (y % 4 = 0 ∧ y % 100 ≠ 0) ∨ y % 400 = 0

instance (y : Int) : Decidable (isLeap y) := by unfold isLeap; infer_instance

/-- Number of days in a month (Python `calendar.monthrange` semantics). -/
def daysInMonth (y : Int) (m : Nat) : Nat :=
  if m = 2 then (if isLeap y then 29 else 28)
  else if m = 4 ∨ m = 6 ∨ m = 9 ∨ m = 11 then 30
  else 31

structure Date where
  year : Int
  month : Nat
  day : Nat
deriving DecidableEq

def Date.Valid (d : Date) : Prop :=
  1 ≤ d.month ∧ d.month ≤ 12 ∧ 1 ≤ d.day ∧ d.day ≤ daysInMonth d.year d.month

instance (d : Date) : Decidable d.Valid := by unfold Date.Valid; infer_instance

/-- Days since 1970-01-01 (rata-die style days-from-civil conversion);
this is `date.toordinal()` shifted by a constant. -/
def Date.toRD (d : Date) : Int :=
  let y : Int := if d.month ≤ 2 then d.year - 1 else d.year
  let era : Int := y / 400
  let yoe : Int := y - era * 400
  let mp : Int := if d.month ≤ 2 then (d.month : Int) + 9 else (d.month : Int) - 3
  let doy : Int := (153 * mp + 2) / 5 + (d.day : Int) - 1
  let doe : Int := yoe * 365 + yoe / 4 - yoe / 100 + doy
  era * 146097 + doe - 719468

/-- Python `date.weekday()`: Monday is 0.  1970-01-01 was a Thursday. -/
def Date.weekday (d : Date) : Int := (d.toRD + 3) % 7

/-- The next calendar day. -/
def Date.succ (d : Date) : Date :=
  if d.day < daysInMonth d.year d.month then ⟨d.year, d.month, d.day + 1⟩
  else if d.month < 12 then ⟨d.year, d.month + 1, 1⟩
  else ⟨d.year + 1, 1, 1⟩

/-- The previous calendar day. -/
def Date.pred (d : Date) : Date :=
  if 1 < d.day then ⟨d.year, d.month, d.day - 1⟩
  else if 1 < d.month then ⟨d.year, d.month - 1, daysInMonth d.year (d.month - 1)⟩
  else ⟨d.year - 1, 12, 31⟩

/-- Python `date + timedelta(days=k)`: advance `k` calendar days. -/
def Date.addDays (d : Date) (k : Int) : Date :=
  if 0 ≤ k then Date.succ^[k.toNat] d else Date.pred^[(-k).toNat] d

/-- Python `date + relativedelta(months=k)` (dateutil): shift the month index and
clamp the day to the length of the resulting month. -/
def Date.addMonths (d : Date) (k : Int) : Date :=
  let idx : Int := d.year * 12 + ((d.month : Int) - 1) + k
  let y : Int := idx / 12
  let m : Nat := (idx % 12).toNat + 1
  ⟨y, m, min d.day (daysInMonth y m)⟩

/-- Python `date + relativedelta(years=k)` (dateutil): shift the year and clamp the
day (Feb 29 becomes Feb 28 in a non-leap year). -/
def Date.addYears (d : Date) (k : Int) : Date :=
  ⟨d.year + k, d.month, min d.day (daysInMonth (d.year + k) d.month)⟩

structure DateTime where
  date : Date
  usec : Nat
deriving DecidableEq

def DateTime.Valid (dt : DateTime) : Prop := dt.date.Valid ∧ dt.usec < usecPerDay

instance (dt : DateTime) : Decidable dt.Valid := by unfold DateTime.Valid; infer_instance

/-- Microseconds since the 1970-01-01 midnight epoch.  On valid datetimes
the order induced by `toMicro` is exactly Python's `datetime` comparison
(lexicographic on the calendar fields). -/
def DateTime.toMicro (dt : DateTime) : Int := dt.date.toRD * (usecPerDay : Int) + (dt.usec : Int)

/-- Python `datetime + timedelta(days=k)` keeps the time of day. -/
def DateTime.addDays (dt : DateTime) (k : Int) : DateTime := ⟨dt.date.addDays k, dt.usec⟩

/-- Python `datetime + timedelta` for a sub-day shift of `k` microseconds: carry
whole days into the date (floor division, as Python normalizes timedelta). -/
def DateTime.addUsec (dt : DateTime) (k : Int) : DateTime :=
  let t : Int := (dt.usec : Int) + k
  ⟨dt.date.addDays (t / (usecPerDay : Int)), (t % (usecPerDay : Int)).toNat⟩

/-- Python `(a - b).days` for two datetimes: the `timedelta` day component,
i.e. the floor of the microsecond difference over a day. -/
def tdDays (a b : DateTime) : Int := (a.toMicro - b.toMicro) / (usecPerDay : Int)

/-- Python exceptions that the scheduler can raise. -/
inductive PyError where
  | typeError
  | valueError
deriving DecidableEq

instance {ε α : Type} [DecidableEq ε] [DecidableEq α] : DecidableEq (Except ε α) := fun x y =>
  match x, y with
  | .ok a, .ok b =>
    if h : a = b then .isTrue (by rw [h]) else .isFalse (by simp [h])
  | .error a, .error b =>
    if h : a = b then .isTrue (by rw [h]) else .isFalse (by simp [h])
  | .ok _, .error _ => .isFalse (by simp)
  | .error _, .ok _ => .isFalse (by simp)

/-- Embeds `Task._add_period_offset(start_date, frequency, period)` (task.py 261-273):
dispatch on the frequency string; unrecognized units raise `ValueError`. -/
def addPeriodOffset (start_date : DateTime) (frequency : String) (period : Int) :
    Except PyError DateTime :=
  if frequency = "hours" then .ok (start_date.addUsec (period * (usecPerHour : Int)))
  else if frequency = "days" then .ok (start_date.addDays period)
  else if frequency = "weeks" then .ok (start_date.addDays (7 * period))
  else if frequency = "months" then .ok ⟨start_date.date.addMonths period, start_date.usec⟩
  else if frequency = "years" then .ok ⟨start_date.date.addYears period, start_date.usec⟩
  else .error .valueError

/-- The five frequency strings `_add_period_offset` recognizes. -/
def validUnit (f : String) : Bool :=
  f = "hours" || f = "days" || f = "weeks" || f = "months" || f = "years"

/-- The pure shift applied by `_add_period_offset` on a recognized unit. -/
def applyPeriod (f : String) (p : Int) (dt : DateTime) : DateTime :=
  if f = "hours" then dt.addUsec (p * (usecPerHour : Int))
  else if f = "days" then dt.addDays p
  else if f = "weeks" then dt.addDays (7 * p)
  else if f = "months" then ⟨dt.date.addMonths p, dt.usec⟩
  else ⟨dt.date.addYears p, dt.usec⟩

/-- Embeds `Task.get_nth_weekday_of_month(time, year, month, weekday, nth)`
(task.py 174-189).  `time` is the time of day in microseconds. -/
def get_nth_weekday_of_month (time : Nat) (year : Int) (month : Nat)
    (weekday : Int) (nth : Int) : Option DateTime :=
  let first_day : Date := ⟨year, month, 1⟩
  let days_to_weekday : Int := (weekday - first_day.weekday + 7) % 7
  let first_occurrence := first_day.addDays days_to_weekday
  let nth_occurrence := first_occurrence.addDays (7 * (nth - 1))
  if nth_occurrence.month ≠ month then none
  else some ⟨nth_occurrence, time⟩

/-- The drift-correction loop of the `every` branch (task.py 197-198):
`while last_completed > start_date: start_date = add_period_offset(...)`.
`fuel` bounds the number of iterations; `none` means the loop did not
finish within `fuel` steps.  An error aborts the loop at the current
anchor, which is returned alongside the error (the failed assignment is
never committed in the source). -/
def catchUp (frequency : String) (period : Int) (last_completed : DateTime) :
    Nat → DateTime → Option (Except (PyError × DateTime) DateTime)
  | fuel, s =>
    if s.toMicro < last_completed.toMicro then
      match fuel, addPeriodOffset s frequency period with
      | _, .error e => some (.error (e, s))
      | 0, .ok _ => none
      | fuel + 1, .ok s' => catchUp frequency period last_completed fuel s'
    else some (.ok s)

/-- The month-search loop of the `scheduled` branch (task.py 205-209):
`while due_date and due_date <= now(): advance month; due_date = ...`.
The outer `none` means the loop did not finish within `fuel` steps;
`some dd` is the loop's final `due_date` (possibly Python `None`). -/
def scheduledLoop (now : DateTime) (task_time : Nat) (schedule_day schedule : Int) :
    Nat → Int → Nat → Option DateTime → Option (Option DateTime)
  | fuel, year, month, due_date =>
    match due_date with
    | none => some none
    | some d =>
      if d.toMicro ≤ now.toMicro then
        match fuel with
        | 0 => none
        | fuel + 1 =>
          let year' := year + (if month = 12 then 1 else 0)
          let month' := if month = 12 then 1 else month + 1
          scheduledLoop now task_time schedule_day schedule fuel year' month'
            (get_nth_weekday_of_month task_time year' month' schedule_day schedule)
      else some due_date

/-- The final line of `get_next_due_date` (task.py 210):
`due_date = self._add_period_offset(due_date, "days", self._offset)`.
When the scheduled search exhausted without a candidate, `due_date` is
Python `None` and `None + timedelta(...)` raises `TypeError`.  The second
component is the (possibly drift-corrected) `_start_date` after the call. -/
def offsetFinish (due_date : Option DateTime) (st : DateTime) (offset : Int) :
    Except PyError (Option DateTime) × DateTime :=
  match due_date with
  | none => (.error .typeError, st)
  | some d =>
    match addPeriodOffset d "days" offset with
    | .error e => (.error e, st)
    | .ok d' => (.ok (some d'), st)

/-- Embeds `Task.get_next_due_date` (task.py 191-211), taking the task fields
explicitly.  `helpers.py` is not part of the sources; modelled from the
spec: `helpers.now()` supplies the current timestamp, which per §5 of the
spec is caller-injected, so it is the explicit parameter `now`, held fixed
during one evaluation.  The result pairs the returned value (or raised
error) with the `_start_date` field after the call (the `every` branch
mutates it); the outer `none` means a loop did not finish within `fuel`. -/
def getNextDueDateCore (fuel : Nat) (start_date last_completed : DateTime)
    (ttype frequency : String) (period schedule schedule_day offset : Int)
    (now : DateTime) : Option (Except PyError (Option DateTime) × DateTime) :=
  if ttype = "after" then
    match addPeriodOffset last_completed frequency period with
    | .error e => some (.error e, start_date)
    | .ok d => some (offsetFinish (some d) start_date offset)
  else if ttype = "every" then
    match catchUp frequency period last_completed fuel start_date with
    | none => none
    | some (.error (e, s')) => some (.error e, s')
    | some (.ok s') =>
      match addPeriodOffset s' frequency period with
      | .error e => some (.error e, s')
      | .ok d => some (offsetFinish (some d) s' offset)
  else if ttype = "scheduled" then
    let task_time := start_date.usec
    match scheduledLoop now task_time schedule_day schedule fuel
        last_completed.date.year last_completed.date.month
        (get_nth_weekday_of_month task_time last_completed.date.year
          last_completed.date.month schedule_day schedule) with
    | none => none
    | some dd => some (offsetFinish dd start_date offset)
  else
    some (offsetFinish (some now) start_date offset)

/-- The mutable task entity state (`Task.__init__`, task.py 39-63). -/
structure TaskState where
  start_date : DateTime
  last_completed : DateTime
  type : String
  frequency : String
  period : Int
  schedule : Int
  schedule_day : Int
  offset : Int
  due_date : Option DateTime
  last_updated : Option DateTime
  days : Option Int
  attr_state : Option Int
  overdue : Bool
  overdue_days : Option Int
deriving DecidableEq

/-- Embeds `Task.get_next_due_date` on a task state. -/
def getNextDueDate (fuel : Nat) (t : TaskState) (now : DateTime) :
    Option (Except PyError (Option DateTime) × DateTime) :=
  getNextDueDateCore fuel t.start_date t.last_completed t.type t.frequency
    t.period t.schedule t.schedule_day t.offset now

/-- Embeds `Task.update_state` (task.py 232-259): set `_last_updated`, evaluate the
rule, then derive `_days`, `_attr_state`, `_overdue`, `_overdue_days`.  A
raised error carries the task state as mutated so far (Python exceptions
leave the object's already-assigned attributes in place). -/
def updateState (fuel : Nat) (t : TaskState) (now : DateTime) :
    Option (Except (PyError × TaskState) TaskState) :=
  let t1 := { t with last_updated := some now }
  match getNextDueDate fuel t1 now with
  | none => none
  | some (.error e, s') => some (.error (e, { t1 with start_date := s' }))
  | some (.ok dd, s') =>
    let t2 := { t1 with start_date := s', due_date := dd }
    match dd with
    | some due =>
      let d := tdDays due now
      some (.ok { t2 with days := some d, attr_state := some d,
                          overdue := decide (d < 0),
                          overdue_days := some (if d > -1 then 0 else |d|) })
    | none =>
      some (.ok { t2 with days := none, attr_state := none,
                          overdue := false, overdue_days := none })

/-- Embeds `Task.complete_task` (task.py 213-214). -/
def completeTask (t : TaskState) (now : DateTime) : TaskState :=
  { t with last_completed := now }

/-- The attributes persisted by the host (`extra_state_attributes` plus the
sensor state, task.py 146-158). -/
structure Snapshot where
  last_completed : Option DateTime
  last_updated : Option DateTime
  overdue : Bool
  overdue_days : Option Int
  due_date : Option DateTime
  start_date : Option DateTime
  state : Option Int
deriving DecidableEq

/-- Embeds `Task.extra_state_attributes` (task.py 146-158) together with the sensor
state (`native_value`, the stored `_attr_state`). -/
def extraStateAttributes (t : TaskState) : Snapshot :=
  { last_completed := some t.last_completed
    last_updated := t.last_updated
    overdue := t.overdue
    overdue_days := t.overdue_days
    due_date := t.due_date
    start_date := some t.start_date
    state := t.attr_state }

/-- The restore step of `async_added_to_hass` (task.py 71-81), exactly as
written: `_last_updated` is cleared, the restored `due_date` attribute is
written to `_due_date`, the restored `last_completed` attribute is written
to `_start_date` (line 77), the restored `start_date` attribute is written
to `_due_date` (line 79), and `_overdue`/`_overdue_days` are restored. -/
def restoreState (t : TaskState) (s : Snapshot) : TaskState :=
  let t1 := { t with last_updated := none, attr_state := s.state }
  let t2 := match s.due_date with
            | some d => { t1 with due_date := some d }
            | none => t1
  let t3 := match s.last_completed with
            | some d => { t2 with start_date := d }
            | none => t2
  let t4 := match s.start_date with
            | some d => { t3 with due_date := some d }
            | none => t3
  { t4 with overdue := s.overdue, overdue_days := s.overdue_days }

/-- Rata-die value of the first day of month index `i` (counting months as
`year * 12 + (month - 1)`). -/
def monthStartRD (i : Int) : Int := Date.toRD ⟨i / 12, (i % 12).toNat + 1, 1⟩

/-- Microseconds of one application of a linear (timedelta-based) unit. -/
def unitUsec (f : String) : Int :=
  if f = "hours" then (usecPerHour : Int)
  else if f = "days" then (usecPerDay : Int)
  else if f = "weeks" then 7 * (usecPerDay : Int)
  else 0

/-! ### Calendar and scheduler lemmas, and the claim theorems -/

set_option maxRecDepth 8000


theorem daysInMonth_ge (y : Int) (m : Nat) : 28 ≤ daysInMonth y m := by
  unfold daysInMonth
  split_ifs <;> omega

theorem daysInMonth_le (y : Int) (m : Nat) : daysInMonth y m ≤ 31 := by
  unfold daysInMonth
  split_ifs <;> omega

theorem Date.valid_succ {d : Date} (h : d.Valid) : d.succ.Valid := by
  obtain ⟨y, m, day⟩ := d
  obtain ⟨h1, h2, h3, h4⟩ := h
  have g1 := daysInMonth_ge y (m + 1)
  have g2 := daysInMonth_ge (y + 1) 1
  unfold Date.succ
  dsimp only at *
  split_ifs with hd hm <;> (unfold Date.Valid; dsimp only) <;>
    exact ⟨by omega, by omega, by omega, by omega⟩

set_option maxHeartbeats 1600000 in
theorem Date.toRD_succ {d : Date} (h : d.Valid) : d.succ.toRD = d.toRD + 1 := by
  obtain ⟨y, m, day⟩ := d
  obtain ⟨h1, h2, h3, h4⟩ := h
  dsimp only at *
  interval_cases m <;>
    (simp only [Date.succ, daysInMonth, isLeap, true_or, or_true, false_or, or_false, ite_true, ite_false] at h4 ⊢
     split_ifs at h4 ⊢ <;>
       (simp only [Date.toRD, daysInMonth, isLeap, true_or, or_true, false_or, or_false, ite_true, ite_false]
        split_ifs <;> omega))



theorem Date.valid_pred {d : Date} (h : d.Valid) : d.pred.Valid := by
  obtain ⟨y, m, day⟩ := d
  obtain ⟨h1, h2, h3, h4⟩ := h
  have g1 := daysInMonth_ge y (m - 1)
  have g2 : daysInMonth (y - 1) 12 = 31 := by unfold daysInMonth; norm_num
  have g3 := daysInMonth_le y (m - 1)
  unfold Date.pred
  dsimp only at *
  split_ifs with hd hm <;> (unfold Date.Valid; dsimp only) <;>
    exact ⟨by omega, by omega, by omega, by omega⟩

set_option maxHeartbeats 1600000 in
theorem Date.toRD_pred {d : Date} (h : d.Valid) : d.pred.toRD = d.toRD - 1 := by
  obtain ⟨y, m, day⟩ := d
  obtain ⟨h1, h2, h3, h4⟩ := h
  dsimp only at *
  interval_cases m <;>
    (simp only [Date.pred, daysInMonth, isLeap, true_or, or_true, false_or, or_false, ite_true, ite_false] at h4 ⊢
     split_ifs at h4 ⊢ <;>
       (simp only [Date.toRD, daysInMonth, isLeap, true_or, or_true, false_or, or_false, ite_true, ite_false]
        split_ifs <;> omega))



theorem Date.succ_mk (y : Int) (m d : Nat) :
    Date.succ ⟨y, m, d⟩ =
      if d < daysInMonth y m then ⟨y, m, d + 1⟩
      else if m < 12 then ⟨y, m + 1, 1⟩ else ⟨y + 1, 1, 1⟩ := rfl

theorem Date.iterate_succ_spec (n : Nat) (d : Date) (h : d.Valid) :
    (Date.succ^[n] d).Valid ∧ (Date.succ^[n] d).toRD = d.toRD + n := by
  induction n with
  | zero => exact ⟨h, by simp⟩
  | succ n ih =>
    rw [Function.iterate_succ_apply']
    obtain ⟨hv, hr⟩ := ih
    refine ⟨Date.valid_succ hv, ?_⟩
    rw [Date.toRD_succ hv, hr]
    push_cast
    ring

theorem Date.iterate_pred_spec (n : Nat) (d : Date) (h : d.Valid) :
    (Date.pred^[n] d).Valid ∧ (Date.pred^[n] d).toRD = d.toRD - n := by
  induction n with
  | zero => exact ⟨h, by simp⟩
  | succ n ih =>
    rw [Function.iterate_succ_apply']
    obtain ⟨hv, hr⟩ := ih
    refine ⟨Date.valid_pred hv, ?_⟩
    rw [Date.toRD_pred hv, hr]
    push_cast
    ring

theorem Date.addDays_spec (d : Date) (h : d.Valid) (k : Int) :
    (d.addDays k).Valid ∧ (d.addDays k).toRD = d.toRD + k := by
  unfold Date.addDays
  split_ifs with hk
  · obtain ⟨hv, hr⟩ := Date.iterate_succ_spec k.toNat d h
    exact ⟨hv, by rw [hr]; omega⟩
  · obtain ⟨hv, hr⟩ := Date.iterate_pred_spec (-k).toNat d h
    exact ⟨hv, by rw [hr]; omega⟩

theorem DateTime.addDays_micro_spec (dt : DateTime) (h : dt.Valid) (k : Int) :
    (dt.addDays k).Valid ∧ (dt.addDays k).toMicro = dt.toMicro + k * (usecPerDay : Int) := by
  obtain ⟨hd, hu⟩ := h
  obtain ⟨hv, hr⟩ := Date.addDays_spec dt.date hd k
  refine ⟨⟨hv, hu⟩, ?_⟩
  unfold DateTime.toMicro DateTime.addDays
  dsimp only
  rw [hr]
  ring

theorem DateTime.addUsec_spec (dt : DateTime) (h : dt.Valid) (k : Int) :
    (dt.addUsec k).Valid ∧ (dt.addUsec k).toMicro = dt.toMicro + k := by
  obtain ⟨hd, hu⟩ := h
  have hmod1 := Int.emod_nonneg ((dt.usec : Int) + k) (by norm_num [usecPerDay] : ((usecPerDay : Nat) : Int) ≠ 0)
  have hmod2 := Int.emod_lt_of_pos ((dt.usec : Int) + k) (by norm_num [usecPerDay] : (0 : Int) < ((usecPerDay : Nat) : Int))
  have hdm := Int.ediv_add_emod ((dt.usec : Int) + k) ((usecPerDay : Nat) : Int)
  obtain ⟨hv, hr⟩ := Date.addDays_spec dt.date hd (((dt.usec : Int) + k) / ((usecPerDay : Nat) : Int))
  simp only [DateTime.addUsec, DateTime.Valid, DateTime.toMicro]
  rw [hr]
  unfold usecPerDay at *
  refine ⟨⟨hv, by omega⟩, by omega⟩

theorem Date.toRD_day (y : Int) (m : Nat) (d1 : Nat) :
    (⟨y, m, d1⟩ : Date).toRD = (⟨y, m, 1⟩ : Date).toRD + d1 - 1 := by
  simp only [Date.toRD]
  split_ifs <;> omega


theorem monthStartRD_succ (i : Int) :
    monthStartRD (i + 1) = monthStartRD i + daysInMonth (i / 12) ((i % 12).toNat + 1) := by
  have hm0 : (0 : Int) ≤ i % 12 := Int.emod_nonneg i (by norm_num)
  have hm1 : i % 12 < 12 := Int.emod_lt_of_pos i (by norm_num)
  have hge := daysInMonth_ge (i / 12) ((i % 12).toNat + 1)
  have hval : (⟨i / 12, (i % 12).toNat + 1,
      daysInMonth (i / 12) ((i % 12).toNat + 1)⟩ : Date).Valid := by
    unfold Date.Valid
    dsimp only
    omega
  have hstep := Date.toRD_succ hval
  rw [Date.succ_mk, if_neg (by omega)] at hstep
  by_cases hc : (i % 12).toNat + 1 < 12
  · rw [if_pos hc] at hstep
    have he : (⟨i / 12, (i % 12).toNat + 1 + 1, 1⟩ : Date)
        = ⟨(i + 1) / 12, ((i + 1) % 12).toNat + 1, 1⟩ := by
      simp only [Date.mk.injEq, and_true, true_and]
      constructor <;> omega
    rw [he] at hstep
    unfold monthStartRD
    rw [hstep, Date.toRD_day (i / 12) ((i % 12).toNat + 1)
      (daysInMonth (i / 12) ((i % 12).toNat + 1))]
    omega
  · rw [if_neg hc] at hstep
    have he : (⟨i / 12 + 1, 1, 1⟩ : Date)
        = ⟨(i + 1) / 12, ((i + 1) % 12).toNat + 1, 1⟩ := by
      simp only [Date.mk.injEq, and_true, true_and]
      constructor <;> omega
    rw [he] at hstep
    unfold monthStartRD
    rw [hstep, Date.toRD_day (i / 12) ((i % 12).toNat + 1)
      (daysInMonth (i / 12) ((i % 12).toNat + 1))]
    omega

theorem monthStartRD_add (i : Int) (k : Nat) :
    monthStartRD i + 28 * k ≤ monthStartRD (i + k) := by
  induction k with
  | zero => simp
  | succ k ih =>
    have he : (i + (k + 1 : Nat) : Int) = (i + k) + 1 := by push_cast; ring
    rw [he, monthStartRD_succ]
    have := daysInMonth_ge ((i + k) / 12) (((i + k) % 12).toNat + 1)
    push_cast
    omega



theorem Date.addMonths_mk (d : Date) (p : Int) :
    d.addMonths p =
      ⟨(d.year * 12 + ((d.month : Int) - 1) + p) / 12,
       ((d.year * 12 + ((d.month : Int) - 1) + p) % 12).toNat + 1,
       min d.day (daysInMonth ((d.year * 12 + ((d.month : Int) - 1) + p) / 12)
         (((d.year * 12 + ((d.month : Int) - 1) + p) % 12).toNat + 1))⟩ := rfl

theorem Date.addMonths_spec (d : Date) (h : d.Valid) (p : Int) (hp : 1 ≤ p) :
    (d.addMonths p).Valid ∧ d.toRD < (d.addMonths p).toRD := by
  obtain ⟨h1, h2, h3, h4⟩ := h
  have hle := daysInMonth_le d.year d.month
  set i : Int := d.year * 12 + ((d.month : Int) - 1) with hi
  have hm0 : (0 : Int) ≤ i % 12 := Int.emod_nonneg i (by norm_num)
  have hm1 : i % 12 < 12 := Int.emod_lt_of_pos i (by norm_num)
  have hip0 : (0 : Int) ≤ (i + p) % 12 := Int.emod_nonneg (i + p) (by norm_num)
  have hip1 : (i + p) % 12 < 12 := Int.emod_lt_of_pos (i + p) (by norm_num)
  have hd0 : (⟨i / 12, (i % 12).toNat + 1, 1⟩ : Date) = ⟨d.year, d.month, 1⟩ := by
    simp only [Date.mk.injEq, and_true, true_and]
    constructor <;> omega
  have hRDd : d.toRD = monthStartRD i + d.day - 1 := by
    unfold monthStartRD
    rw [hd0]
    rw [Date.toRD_day d.year d.month d.day]
  have hge' := daysInMonth_ge ((i + p) / 12) (((i + p) % 12).toNat + 1)
  have hRDp : (d.addMonths p).toRD
      = monthStartRD (i + p)
        + min d.day (daysInMonth ((i + p) / 12) (((i + p) % 12).toNat + 1)) - 1 := by
    rw [Date.addMonths_mk, ← hi]
    rw [Date.toRD_day ((i + p) / 12) (((i + p) % 12).toNat + 1)]
    rfl
  have hmsa := monthStartRD_add i p.toNat
  have hptn : (i + (p.toNat : Int)) = i + p := by omega
  rw [hptn] at hmsa
  constructor
  · rw [Date.addMonths_mk, ← hi]
    unfold Date.Valid
    dsimp only
    omega
  · rw [hRDd, hRDp]
    omega

theorem Date.addYears_eq (d : Date) (h : d.Valid) (p : Int) :
    d.addYears p = d.addMonths (12 * p) := by
  obtain ⟨h1, h2, h3, h4⟩ := h
  rw [Date.addMonths_mk]
  unfold Date.addYears
  have hy : d.year + p = (d.year * 12 + ((d.month : Int) - 1) + 12 * p) / 12 := by omega
  have hm : d.month = ((d.year * 12 + ((d.month : Int) - 1) + 12 * p) % 12).toNat + 1 := by omega
  simp only [Date.mk.injEq]
  refine ⟨hy, hm, ?_⟩
  rw [← hy, ← hm]

theorem Date.addYears_spec (d : Date) (h : d.Valid) (p : Int) (hp : 1 ≤ p) :
    (d.addYears p).Valid ∧ d.toRD < (d.addYears p).toRD := by
  rw [Date.addYears_eq d h p]
  exact Date.addMonths_spec d h (12 * p) (by omega)

theorem validUnit_cases {f : String} (hf : validUnit f = true) :
    f = "hours" ∨ f = "days" ∨ f = "weeks" ∨ f = "months" ∨ f = "years" := by
  unfold validUnit at hf
  simp only [Bool.or_eq_true, decide_eq_true_eq] at hf
  tauto

theorem addPeriodOffset_ok (dt : DateTime) (f : String) (p : Int)
    (hf : validUnit f = true) : addPeriodOffset dt f p = .ok (applyPeriod f p dt) := by
  rcases validUnit_cases hf with h | h | h | h | h <;>
    (subst h; rfl)

theorem addPeriodOffset_bad (dt : DateTime) (f : String) (p : Int)
    (hf : validUnit f = false) : addPeriodOffset dt f p = .error .valueError := by
  unfold validUnit at hf
  simp only [Bool.or_eq_false_iff, decide_eq_false_iff_not] at hf
  obtain ⟨⟨⟨⟨n1, n2⟩, n3⟩, n4⟩, n5⟩ := hf
  unfold addPeriodOffset
  rw [if_neg n1, if_neg n2, if_neg n3, if_neg n4, if_neg n5]

theorem applyPeriod_spec (f : String) (hf : validUnit f = true) (p : Int) (hp : 1 ≤ p)
    (dt : DateTime) (h : dt.Valid) :
    (applyPeriod f p dt).Valid ∧ dt.toMicro < (applyPeriod f p dt).toMicro := by
  have hval := h
  obtain ⟨hd, hu⟩ := h
  rcases validUnit_cases hf with hc | hc | hc | hc | hc <;> subst hc
  · have hk : (1 : Int) * (usecPerHour : Int) ≤ p * (usecPerHour : Int) := by
      apply mul_le_mul_of_nonneg_right hp
      norm_num [usecPerHour]
    obtain ⟨hv, hr⟩ := DateTime.addUsec_spec dt hval (p * (usecPerHour : Int))
    have : applyPeriod "hours" p dt = dt.addUsec (p * (usecPerHour : Int)) := rfl
    rw [this, hr]
    exact ⟨hv, by unfold usecPerHour at *; omega⟩
  · obtain ⟨hv, hr⟩ := DateTime.addDays_micro_spec dt hval p
    have : applyPeriod "days" p dt = dt.addDays p := rfl
    rw [this, hr]
    refine ⟨hv, ?_⟩
    have : (0 : Int) < (usecPerDay : Int) := by norm_num [usecPerDay]
    nlinarith
  · obtain ⟨hv, hr⟩ := DateTime.addDays_micro_spec dt hval (7 * p)
    have : applyPeriod "weeks" p dt = dt.addDays (7 * p) := rfl
    rw [this, hr]
    refine ⟨hv, ?_⟩
    have : (0 : Int) < (usecPerDay : Int) := by norm_num [usecPerDay]
    nlinarith
  · obtain ⟨hv, hr⟩ := Date.addMonths_spec dt.date hd p hp
    have he : applyPeriod "months" p dt = ⟨dt.date.addMonths p, dt.usec⟩ := rfl
    rw [he]
    refine ⟨⟨hv, hu⟩, ?_⟩
    unfold DateTime.toMicro
    dsimp only
    have : (0 : Int) < (usecPerDay : Int) := by norm_num [usecPerDay]
    nlinarith
  · obtain ⟨hv, hr⟩ := Date.addYears_spec dt.date hd p hp
    have he : applyPeriod "years" p dt = ⟨dt.date.addYears p, dt.usec⟩ := rfl
    rw [he]
    refine ⟨⟨hv, hu⟩, ?_⟩
    unfold DateTime.toMicro
    dsimp only
    have : (0 : Int) < (usecPerDay : Int) := by norm_num [usecPerDay]
    nlinarith



theorem applyPeriod_iterate_spec (f : String) (hf : validUnit f = true) (p : Int)
    (hp : 1 ≤ p) (dt : DateTime) (h : dt.Valid) (n : Nat) :
    ((applyPeriod f p)^[n] dt).Valid ∧
      (1 ≤ n → dt.toMicro < ((applyPeriod f p)^[n] dt).toMicro) := by
  induction n with
  | zero => exact ⟨h, by omega⟩
  | succ n ih =>
    obtain ⟨hv, hm⟩ := ih
    rw [Function.iterate_succ_apply']
    obtain ⟨hv', hm'⟩ := applyPeriod_spec f hf p hp _ hv
    refine ⟨hv', fun _ => ?_⟩
    rcases Nat.eq_zero_or_pos n with hn | hn
    · subst hn
      simpa using hm'
    · exact (hm hn).trans hm'

theorem applyPeriod_iterate_lt (f : String) (hf : validUnit f = true) (p : Int)
    (hp : 1 ≤ p) (dt : DateTime) (h : dt.Valid) (j m : Nat) (hjm : j < m) :
    ((applyPeriod f p)^[j] dt).toMicro < ((applyPeriod f p)^[m] dt).toMicro := by
  have hdecomp : (applyPeriod f p)^[m] dt
      = (applyPeriod f p)^[m - j] ((applyPeriod f p)^[j] dt) := by
    rw [← Function.iterate_add_apply]
    congr 1
    omega
  rw [hdecomp]
  obtain ⟨hvj, _⟩ := applyPeriod_iterate_spec f hf p hp dt h j
  obtain ⟨_, hlt⟩ := applyPeriod_iterate_spec f hf p hp _ hvj (m - j)
  exact hlt (by omega)

theorem applyPeriod_iterate_le (f : String) (hf : validUnit f = true) (p : Int)
    (hp : 1 ≤ p) (dt : DateTime) (h : dt.Valid) (j m : Nat) (hjm : j ≤ m) :
    ((applyPeriod f p)^[j] dt).toMicro ≤ ((applyPeriod f p)^[m] dt).toMicro := by
  rcases Nat.lt_or_ge j m with hlt | hge
  · exact (applyPeriod_iterate_lt f hf p hp dt h j m hlt).le
  · have : j = m := by omega
    subst this
    exact le_refl _

theorem catchUp_stop (f : String) (p : Int) (lc : DateTime) (fuel : Nat) (s : DateTime)
    (h : ¬ s.toMicro < lc.toMicro) :
    catchUp f p lc fuel s = some (.ok s) := by
  unfold catchUp
  rw [if_neg h]

theorem catchUp_aligned (f : String) (hf : validUnit f = true) (p : Int) (hp : 1 ≤ p) :
    ∀ (k : Nat) (s : DateTime), s.Valid → ∀ (fuel : Nat), k ≤ fuel →
      catchUp f p ((applyPeriod f p)^[k] s) fuel s = some (.ok ((applyPeriod f p)^[k] s)) := by
  intro k
  induction k with
  | zero =>
    intro s hs fuel _
    simp only [Function.iterate_zero_apply]
    exact catchUp_stop f p s fuel s (by omega)
  | succ k ih =>
    intro s hs fuel hfuel
    match fuel with
    | fuel + 1 =>
      unfold catchUp
      have hlt : s.toMicro < ((applyPeriod f p)^[k + 1] s).toMicro := by
        have := (applyPeriod_iterate_spec f hf p hp s hs (k + 1)).2 (by omega)
        simpa using this
      rw [if_pos hlt, addPeriodOffset_ok s f p hf]
      have hrw : (applyPeriod f p)^[k + 1] s = (applyPeriod f p)^[k] (applyPeriod f p s) :=
        Function.iterate_succ_apply (applyPeriod f p) k s
      rw [hrw]
      exact ih (applyPeriod f p s) (applyPeriod_spec f hf p hp s hs).1 fuel (by omega)

theorem addPeriodOffset_error_inv (dt : DateTime) (f : String) (p : Int) (e : PyError)
    (h : addPeriodOffset dt f p = .error e) : validUnit f = false ∧ e = .valueError := by
  by_cases hv : validUnit f = true
  · rw [addPeriodOffset_ok dt f p hv] at h
    exact absurd h (by simp)
  · have hv' : validUnit f = false := by
      revert hv
      cases validUnit f <;> simp
    rw [addPeriodOffset_bad dt f p hv'] at h
    refine ⟨hv', ?_⟩
    injection h with h
    exact h.symm




theorem catchUp_error_inv (f : String) (p : Int) (lc : DateTime) :
    ∀ (fuel : Nat) (s s' : DateTime) (e : PyError),
      catchUp f p lc fuel s = some (.error (e, s')) →
      s' = s ∧ validUnit f = false ∧ e = .valueError := by
  intro fuel
  induction fuel with
  | zero =>
    intro s s' e h
    unfold catchUp at h
    split_ifs at h
    · cases hA : addPeriodOffset s f p with
      | error e0 =>
        rw [hA] at h
        simp only [Option.some.injEq, Except.error.injEq, Prod.mk.injEq] at h
        obtain ⟨he, hs⟩ := h
        obtain ⟨hu, hv⟩ := addPeriodOffset_error_inv s f p e0 hA
        refine ⟨hs.symm, hu, ?_⟩
        rw [← he]
        exact hv
      | ok s2 =>
        rw [hA] at h
        simp at h
    · simp at h
  | succ fuel ih =>
    intro s s' e h
    unfold catchUp at h
    split_ifs at h
    · cases hA : addPeriodOffset s f p with
      | error e0 =>
        rw [hA] at h
        simp only [Option.some.injEq, Except.error.injEq, Prod.mk.injEq] at h
        obtain ⟨he, hs⟩ := h
        obtain ⟨hu, hv⟩ := addPeriodOffset_error_inv s f p e0 hA
        refine ⟨hs.symm, hu, ?_⟩
        rw [← he]
        exact hv
      | ok s2 =>
        rw [hA] at h
        obtain ⟨_, hu, _⟩ := ih s2 s' e h
        rw [addPeriodOffset_bad s f p hu] at hA
        simp at hA
    · simp at h

theorem catchUp_ok_inv (f : String) (p : Int) (lc : DateTime) :
    ∀ (fuel : Nat) (s s' : DateTime),
      catchUp f p lc fuel s = some (.ok s') →
      validUnit f = true ∨ s' = s := by
  intro fuel
  induction fuel with
  | zero =>
    intro s s' h
    unfold catchUp at h
    split_ifs at h
    · cases hA : addPeriodOffset s f p with
      | error e0 => rw [hA] at h; simp at h
      | ok s2 => rw [hA] at h; simp at h
    · simp only [Option.some.injEq, Except.ok.injEq] at h
      right
      exact h.symm
  | succ fuel ih =>
    intro s s' h
    unfold catchUp at h
    split_ifs at h
    · cases hA : addPeriodOffset s f p with
      | error e0 => rw [hA] at h; simp at h
      | ok s2 =>
        rw [hA] at h
        left
        rcases ih s2 s' h with hv | _
        · exact hv
        · by_cases hv : validUnit f = true
          · exact hv
          · have hv' : validUnit f = false := by revert hv; cases validUnit f <;> simp
            rw [addPeriodOffset_bad s f p hv'] at hA
            simp at hA
    · simp only [Option.some.injEq, Except.ok.injEq] at h
      right
      exact h.symm



theorem offsetFinish_some (d : DateTime) (st : DateTime) (ofs : Int) :
    offsetFinish (some d) st ofs = (.ok (some (d.addDays ofs)), st) := rfl

theorem offsetFinish_none (st : DateTime) (ofs : Int) :
    offsetFinish none st ofs = (.error .typeError, st) := rfl

theorem getNextDueDate_after (fuel : Nat) (t : TaskState) (now : DateTime)
    (hty : t.type = "after") (hf : validUnit t.frequency = true) :
    getNextDueDate fuel t now
      = some (.ok (some ((applyPeriod t.frequency t.period t.last_completed).addDays t.offset)),
          t.start_date) := by
  unfold getNextDueDate getNextDueDateCore
  rw [hty, if_pos rfl, addPeriodOffset_ok _ _ _ hf]
  dsimp only
  rw [offsetFinish_some]

theorem getNextDueDate_every (fuel : Nat) (t : TaskState) (now : DateTime)
    (hty : t.type = "every") :
    getNextDueDate fuel t now
      = (match catchUp t.frequency t.period t.last_completed fuel t.start_date with
         | none => none
         | some (.error (e, s')) => some (.error e, s')
         | some (.ok s') =>
           match addPeriodOffset s' t.frequency t.period with
           | .error e => some (.error e, s')
           | .ok d => some (offsetFinish (some d) s' t.offset)) := by
  unfold getNextDueDate getNextDueDateCore
  rw [hty, if_neg (by decide), if_pos rfl]

theorem getNextDueDate_scheduled (fuel : Nat) (t : TaskState) (now : DateTime)
    (hty : t.type = "scheduled") :
    getNextDueDate fuel t now
      = (match scheduledLoop now t.start_date.usec t.schedule_day t.schedule fuel
            t.last_completed.date.year t.last_completed.date.month
            (get_nth_weekday_of_month t.start_date.usec t.last_completed.date.year
              t.last_completed.date.month t.schedule_day t.schedule) with
         | none => none
         | some dd => some (offsetFinish dd t.start_date t.offset)) := by
  unfold getNextDueDate getNextDueDateCore
  rw [hty, if_neg (by decide), if_neg (by decide), if_pos rfl]


/-- C4: for an `after` rule with a recognized frequency unit, the evaluator
returns exactly `last_completed` shifted by `period` units and then by
`offset` days, for every `start_date` and every `now`; for the timedelta
units the shift is the corresponding exact number of microseconds. -/
theorem C4_after_formula (fuel : Nat) (t : TaskState) (now : DateTime)
    (hty : t.type = "after") (hf : validUnit t.frequency = true) :
    getNextDueDate fuel t now
      = some (.ok (some ((applyPeriod t.frequency t.period t.last_completed).addDays t.offset)),
          t.start_date)
    ∧ (∀ start' now' : DateTime,
        getNextDueDate fuel { t with start_date := start' } now'
          = some (.ok (some ((applyPeriod t.frequency t.period t.last_completed).addDays t.offset)),
              start'))
    ∧ (t.last_completed.Valid →
        (t.frequency = "hours" ∨ t.frequency = "days" ∨ t.frequency = "weeks") →
        ((applyPeriod t.frequency t.period t.last_completed).addDays t.offset).toMicro
          = t.last_completed.toMicro + t.period * unitUsec t.frequency
            + t.offset * (usecPerDay : Int)) := by
  refine ⟨getNextDueDate_after fuel t now hty hf, ?_, ?_⟩
  · intro start' now'
    exact getNextDueDate_after fuel { t with start_date := start' } now' hty hf
  · intro hval hlin
    rcases hlin with hc | hc | hc <;> rw [hc]
    · have h1 : applyPeriod "hours" t.period t.last_completed
          = t.last_completed.addUsec (t.period * (usecPerHour : Int)) := rfl
      obtain ⟨hv1, hr1⟩ := DateTime.addUsec_spec t.last_completed hval
        (t.period * (usecPerHour : Int))
      obtain ⟨_, hr2⟩ := DateTime.addDays_micro_spec _ hv1 t.offset
      rw [h1, hr2, hr1]
      have hu : unitUsec "hours" = (usecPerHour : Int) := rfl
      rw [hu]
    · have h1 : applyPeriod "days" t.period t.last_completed
          = t.last_completed.addDays t.period := rfl
      obtain ⟨hv1, hr1⟩ := DateTime.addDays_micro_spec t.last_completed hval t.period
      obtain ⟨_, hr2⟩ := DateTime.addDays_micro_spec _ hv1 t.offset
      rw [h1, hr2, hr1]
      have hu : unitUsec "days" = (usecPerDay : Int) := rfl
      rw [hu]
    · have h1 : applyPeriod "weeks" t.period t.last_completed
          = t.last_completed.addDays (7 * t.period) := rfl
      obtain ⟨hv1, hr1⟩ := DateTime.addDays_micro_spec t.last_completed hval (7 * t.period)
      obtain ⟨_, hr2⟩ := DateTime.addDays_micro_spec _ hv1 t.offset
      rw [h1, hr2, hr1]
      have hu : unitUsec "weeks" = 7 * (usecPerDay : Int) := rfl
      rw [hu]
      ring

/-- Concrete witness for C4: a 7-day `after` rule completed on
2024-01-10 is due 2024-01-17, for two different start dates and nows. -/
theorem C4_after_formula_witness :
    getNextDueDate 1
        ⟨⟨⟨2024, 1, 1⟩, 0⟩, ⟨⟨2024, 1, 10⟩, 0⟩, "after", "days", 7, 1, 0, 0,
          none, none, none, none, false, none⟩
        ⟨⟨2024, 1, 15⟩, 0⟩
      = some (.ok (some ⟨⟨2024, 1, 17⟩, 0⟩), ⟨⟨2024, 1, 1⟩, 0⟩) := by
  have h := C4_after_formula 1
    ⟨⟨⟨2024, 1, 1⟩, 0⟩, ⟨⟨2024, 1, 10⟩, 0⟩, "after", "days", 7, 1, 0, 0,
      none, none, none, none, false, none⟩
    ⟨⟨2024, 1, 15⟩, 0⟩ rfl (by decide)
  rw [h.1]
  decide



/-- C9: the next-due-date computation is a pure function of `(rule fields,
start_date, last_completed, now)`: two task states agreeing on those fields
produce identical results, `now` being an explicit caller-supplied argument
(no global clock is consulted). -/
theorem C9_deterministic (fuel : Nat) (t1 t2 : TaskState) (now : DateTime)
    (h1 : t1.type = t2.type) (h2 : t1.frequency = t2.frequency)
    (h3 : t1.period = t2.period) (h4 : t1.schedule = t2.schedule)
    (h5 : t1.schedule_day = t2.schedule_day) (h6 : t1.offset = t2.offset)
    (h7 : t1.start_date = t2.start_date) (h8 : t1.last_completed = t2.last_completed) :
    getNextDueDate fuel t1 now = getNextDueDate fuel t2 now := by
  unfold getNextDueDate
  rw [h1, h2, h3, h4, h5, h6, h7, h8]

/-- Concrete witness for C9: identical rules with different cached
`due_date`/`overdue` metadata evaluate identically. -/
theorem C9_deterministic_witness :
    getNextDueDate 3
        ⟨⟨⟨2024, 1, 1⟩, 0⟩, ⟨⟨2024, 1, 10⟩, 0⟩, "after", "days", 7, 1, 0, 0,
          none, none, none, none, false, none⟩
        ⟨⟨2024, 1, 15⟩, 0⟩
      = getNextDueDate 3
        ⟨⟨⟨2024, 1, 1⟩, 0⟩, ⟨⟨2024, 1, 10⟩, 0⟩, "after", "days", 7, 1, 0, 0,
          some ⟨⟨2023, 6, 6⟩, 5⟩, some ⟨⟨2023, 6, 7⟩, 5⟩, some 11, some 11, true, some 4⟩
        ⟨⟨2024, 1, 15⟩, 0⟩ :=
  C9_deterministic 3 _ _ _ rfl rfl rfl rfl rfl rfl rfl rfl

theorem getNextDueDate_after_bad (fuel : Nat) (t : TaskState) (now : DateTime)
    (hty : t.type = "after") (hf : validUnit t.frequency = false) :
    getNextDueDate fuel t now = some (.error .valueError, t.start_date) := by
  unfold getNextDueDate getNextDueDateCore
  rw [hty, if_pos rfl, addPeriodOffset_bad _ _ _ hf]

theorem getNextDueDate_every_bad (fuel : Nat) (t : TaskState) (now : DateTime)
    (hty : t.type = "every") (hf : validUnit t.frequency = false) :
    getNextDueDate fuel t now = some (.error .valueError, t.start_date) := by
  rw [getNextDueDate_every fuel t now hty]
  by_cases hg : t.start_date.toMicro < t.last_completed.toMicro
  · have hC : catchUp t.frequency t.period t.last_completed fuel t.start_date
        = some (.error (.valueError, t.start_date)) := by
      unfold catchUp
      rw [if_pos hg, addPeriodOffset_bad _ _ _ hf]
      cases fuel <;> rfl
    rw [hC]
  · rw [catchUp_stop t.frequency t.period t.last_completed fuel t.start_date hg]
    dsimp only
    rw [addPeriodOffset_bad _ _ _ hf]

theorem updateState_of_error (fuel : Nat) (t : TaskState) (now : DateTime)
    (e : PyError) (s' : DateTime)
    (h : getNextDueDate fuel { t with last_updated := some now } now = some (.error e, s')) :
    updateState fuel t now
      = some (.error (e, { t with last_updated := some now, start_date := s' })) := by
  simp only [updateState]
  rw [h]

theorem getNextDueDate_error_start (fuel : Nat) (t : TaskState) (now : DateTime)
    (e : PyError) (s' : DateTime)
    (h : getNextDueDate fuel t now = some (.error e, s')) : s' = t.start_date := by
  unfold getNextDueDate getNextDueDateCore at h
  split_ifs at h with h1 h2 h3 <;> (try dsimp only at h)
  · cases hA : addPeriodOffset t.last_completed t.frequency t.period with
    | error e0 =>
      rw [hA] at h
      simp only [Option.some.injEq, Prod.mk.injEq] at h
      exact h.2.symm
    | ok d =>
      rw [hA] at h
      simp only [offsetFinish_some, Option.some.injEq, Prod.mk.injEq] at h
      exact absurd h.1 (by simp)
  · cases hC : catchUp t.frequency t.period t.last_completed fuel t.start_date with
    | none => rw [hC] at h; simp at h
    | some r =>
      rw [hC] at h
      try dsimp only at h
      cases r with
      | error pr =>
        obtain ⟨e0, s0⟩ := pr
        try dsimp only at h
        simp only [Option.some.injEq, Prod.mk.injEq] at h
        obtain ⟨s0eq, _, _⟩ := catchUp_error_inv _ _ _ fuel _ _ _ hC
        rw [h.2] at s0eq
        exact s0eq
      | ok s0 =>
        try dsimp only at h
        cases hA : addPeriodOffset s0 t.frequency t.period with
        | error e0 =>
          rw [hA] at h
          try dsimp only at h
          simp only [Option.some.injEq, Prod.mk.injEq] at h
          obtain ⟨hu, _⟩ := addPeriodOffset_error_inv s0 t.frequency t.period e0 hA
          rcases catchUp_ok_inv _ _ _ fuel _ _ hC with hv | hs0
          · rw [hv] at hu; exact absurd hu (by simp)
          · rw [h.2] at hs0; exact hs0
        | ok d =>
          rw [hA] at h
          try dsimp only at h
          simp only [offsetFinish_some, Option.some.injEq, Prod.mk.injEq] at h
          exact absurd h.1 (by simp)
  · cases hL : scheduledLoop now t.start_date.usec t.schedule_day t.schedule fuel
        t.last_completed.date.year t.last_completed.date.month
        (get_nth_weekday_of_month t.start_date.usec t.last_completed.date.year
          t.last_completed.date.month t.schedule_day t.schedule) with
    | none => rw [hL] at h; simp at h
    | some dd =>
      rw [hL] at h
      try dsimp only at h
      cases dd with
      | none =>
        simp only [offsetFinish_none, Option.some.injEq, Prod.mk.injEq] at h
        exact h.2.symm
      | some d =>
        simp only [offsetFinish_some, Option.some.injEq, Prod.mk.injEq] at h
        exact absurd h.1 (by simp)
  · simp only [offsetFinish_some, Option.some.injEq, Prod.mk.injEq] at h
    exact absurd h.1 (by simp)

/-- C6 (amended): when refresh fails, the raised error leaves every task
field unchanged except `last_updated`, which was already set to the
refresh's `now` before evaluation. -/
theorem C6_error_state (fuel : Nat) (t : TaskState) (now : DateTime)
    (e : PyError) (t' : TaskState)
    (h : updateState fuel t now = some (.error (e, t'))) :
    t' = { t with last_updated := some now } := by
  unfold updateState at h
  try dsimp only at h
  cases hG : getNextDueDate fuel { t with last_updated := some now } now with
  | none => rw [hG] at h; simp at h
  | some r =>
    obtain ⟨res, s'⟩ := r
    rw [hG] at h
    try dsimp only at h
    cases res with
    | error e0 =>
      simp only [Option.some.injEq, Except.error.injEq, Prod.mk.injEq] at h
      have hs := getNextDueDate_error_start fuel _ now e0 s' hG
      rw [← h.2, hs]
    | ok dd =>
      cases dd <;> simp at h

/-- Counterexample to C6 as stated: a refresh that fails (unrecognized
frequency unit) still mutates `last_updated`, so the state is not left
fully unchanged on failure. -/
theorem C6_counterexample :
    updateState 1
        ⟨⟨⟨2024, 1, 1⟩, 0⟩, ⟨⟨2024, 1, 10⟩, 0⟩, "after", "fortnights", 7, 1, 0, 0,
          none, some ⟨⟨2024, 1, 2⟩, 0⟩, none, none, false, none⟩
        ⟨⟨2024, 1, 15⟩, 0⟩
      = some (.error (.valueError,
          ⟨⟨⟨2024, 1, 1⟩, 0⟩, ⟨⟨2024, 1, 10⟩, 0⟩, "after", "fortnights", 7, 1, 0, 0,
            none, some ⟨⟨2024, 1, 15⟩, 0⟩, none, none, false, none⟩))
    ∧ (some (⟨⟨2024, 1, 15⟩, 0⟩ : DateTime) ≠ some (⟨⟨2024, 1, 2⟩, 0⟩ : DateTime)) := by
  constructor
  · decide
  · decide

/-- C7: an unrecognized frequency unit makes `_add_period_offset` raise
`ValueError` (never returning a date), and a refresh of an `after` or
`every` task with that unit propagates the error to the caller. -/
theorem C7_invalid_unit (dt now : DateTime) (p : Int) (f : String)
    (t : TaskState) (fuel : Nat) (hf : validUnit f = false) (hfr : t.frequency = f) :
    addPeriodOffset dt f p = .error .valueError
    ∧ (t.type = "after" →
        updateState fuel t now = some (.error (.valueError,
          { t with last_updated := some now })))
    ∧ (t.type = "every" →
        updateState fuel t now = some (.error (.valueError,
          { t with last_updated := some now }))) := by
  refine ⟨addPeriodOffset_bad dt f p hf, ?_, ?_⟩
  · intro hty
    have hff : validUnit t.frequency = false := by rw [hfr]; exact hf
    have h := getNextDueDate_after_bad fuel { t with last_updated := some now } now hty hff
    exact updateState_of_error fuel t now .valueError _ h
  · intro hty
    have hff : validUnit t.frequency = false := by rw [hfr]; exact hf
    have h := getNextDueDate_every_bad fuel { t with last_updated := some now } now hty hff
    exact updateState_of_error fuel t now .valueError _ h

/-- Concrete witness for C7: frequency `"fortnights"` raises `ValueError`
from both the period helper and a full refresh. -/
theorem C7_invalid_unit_witness :
    addPeriodOffset ⟨⟨2024, 3, 1⟩, 0⟩ "fortnights" 2 = .error .valueError
    ∧ updateState 5
        ⟨⟨⟨2024, 2, 1⟩, 0⟩, ⟨⟨2024, 2, 20⟩, 0⟩, "every", "fortnights", 2, 1, 0, 0,
          none, none, none, none, false, none⟩
        ⟨⟨2024, 2, 21⟩, 0⟩
      = some (.error (.valueError,
          ⟨⟨⟨2024, 2, 1⟩, 0⟩, ⟨⟨2024, 2, 20⟩, 0⟩, "every", "fortnights", 2, 1, 0, 0,
            none, some ⟨⟨2024, 2, 21⟩, 0⟩, none, none, false, none⟩)) := by
  have h := C7_invalid_unit ⟨⟨2024, 3, 1⟩, 0⟩ ⟨⟨2024, 2, 21⟩, 0⟩ 2 "fortnights"
    ⟨⟨⟨2024, 2, 1⟩, 0⟩, ⟨⟨2024, 2, 20⟩, 0⟩, "every", "fortnights", 2, 1, 0, 0,
      none, none, none, none, false, none⟩
    5 (by decide) rfl
  exact ⟨h.1, h.2.2 rfl⟩



/-- C5: whenever a refresh succeeds with a due date, the derived metrics
satisfy `days = (due_date - last_updated).days` with `last_updated = now`,
`overdue = (days < 0)`, and `overdue_days = 0` when `days > -1` else `|days|`;
in particular a due date exactly 3 days before `now` gives
`days = -3, overdue, overdue_days = 3`, one 2 days after gives
`overdue = false, overdue_days = 0`, and `due_date = now` gives
`days = 0, overdue = false`. -/
theorem C5_overdue_metrics (fuel : Nat) (t : TaskState) (now : DateTime)
    (t' : TaskState) (d : DateTime)
    (h : updateState fuel t now = some (.ok t'))
    (hd : t'.due_date = some d) :
    t'.last_updated = some now
    ∧ t'.days = some (tdDays d now)
    ∧ t'.overdue = decide (tdDays d now < 0)
    ∧ t'.overdue_days = some (if tdDays d now > -1 then 0 else |tdDays d now|)
    ∧ (d.toMicro = now.toMicro - 3 * (usecPerDay : Int) →
        t'.days = some (-3) ∧ t'.overdue = true ∧ t'.overdue_days = some 3)
    ∧ (d.toMicro = now.toMicro + 2 * (usecPerDay : Int) →
        t'.days = some 2 ∧ t'.overdue = false ∧ t'.overdue_days = some 0)
    ∧ (d.toMicro = now.toMicro → t'.days = some 0 ∧ t'.overdue = false) := by
  unfold updateState at h
  try dsimp only at h
  cases hG : getNextDueDate fuel { t with last_updated := some now } now with
  | none => rw [hG] at h; simp at h
  | some r =>
    obtain ⟨res, s'⟩ := r
    rw [hG] at h
    try dsimp only at h
    cases res with
    | error e0 => simp at h
    | ok dd =>
      cases dd with
      | none =>
        simp only [Option.some.injEq, Except.ok.injEq] at h
        rw [← h] at hd
        simp at hd
      | some due =>
        simp only [Option.some.injEq, Except.ok.injEq] at h
        have hdu : due = d := by
          rw [← h] at hd
          simpa using hd
        rw [← h, ← hdu]
        have htd : tdDays due now = (due.toMicro - now.toMicro) / ((usecPerDay : Nat) : Int) := rfl
        refine ⟨rfl, rfl, rfl, rfl, ?_, ?_, ?_⟩
        · intro he
          rw [hdu] at htd
          rw [hdu] at he ⊢
          have h3 : tdDays d now = -3 := by
            rw [htd, he]
            unfold usecPerDay
            omega
          rw [h3]
          exact ⟨rfl, rfl, rfl⟩
        · intro he
          rw [hdu] at htd
          rw [hdu] at he ⊢
          have h2 : tdDays d now = 2 := by
            rw [htd, he]
            unfold usecPerDay
            omega
          rw [h2]
          exact ⟨rfl, rfl, rfl⟩
        · intro he
          rw [hdu] at htd
          rw [hdu] at he ⊢
          have h0 : tdDays d now = 0 := by
            rw [htd, he]
            unfold usecPerDay
            omega
          rw [h0]
          exact ⟨rfl, rfl⟩

/-- Concrete witness for C5: a task due 2024-01-12 refreshed at 2024-01-15
is 3 days overdue. -/
theorem C5_overdue_metrics_witness :
    (⟨⟨⟨2024, 1, 1⟩, 0⟩, ⟨⟨2024, 1, 5⟩, 0⟩, "after", "days", 7, 1, 0, 0,
        some ⟨⟨2024, 1, 12⟩, 0⟩, some ⟨⟨2024, 1, 15⟩, 0⟩, some (-3), some (-3), true,
        some 3⟩ : TaskState).days = some (tdDays ⟨⟨2024, 1, 12⟩, 0⟩ ⟨⟨2024, 1, 15⟩, 0⟩)
    ∧ (⟨⟨⟨2024, 1, 1⟩, 0⟩, ⟨⟨2024, 1, 5⟩, 0⟩, "after", "days", 7, 1, 0, 0,
        some ⟨⟨2024, 1, 12⟩, 0⟩, some ⟨⟨2024, 1, 15⟩, 0⟩, some (-3), some (-3), true,
        some 3⟩ : TaskState).overdue_days = some 3 := by
  have h := C5_overdue_metrics 1
    ⟨⟨⟨2024, 1, 1⟩, 0⟩, ⟨⟨2024, 1, 5⟩, 0⟩, "after", "days", 7, 1, 0, 0,
      none, none, none, none, false, none⟩
    ⟨⟨2024, 1, 15⟩, 0⟩
    ⟨⟨⟨2024, 1, 1⟩, 0⟩, ⟨⟨2024, 1, 5⟩, 0⟩, "after", "days", 7, 1, 0, 0,
      some ⟨⟨2024, 1, 12⟩, 0⟩, some ⟨⟨2024, 1, 15⟩, 0⟩, some (-3), some (-3), true,
      some 3⟩
    ⟨⟨2024, 1, 12⟩, 0⟩ (by decide) (by decide)
  obtain ⟨-, h2, -, -, h5, -, -⟩ := h
  have h5' := h5 (by decide)
  exact ⟨h2, h5'.2.2⟩



theorem DateTime.addDays_zero (dt : DateTime) : dt.addDays 0 = dt := rfl

/-- C1 (amended): for an `every` rule (recognized unit, `period ≥ 1`,
`offset = 0`) whose `last_completed` sits exactly `k ≥ 1` periods past the
`start_date` anchor, the evaluator returns the smallest anchor-aligned
timestamp strictly greater than `last_completed` (namely the `(k+1)`-st
iterate of the period step), stores the caught-up anchor, and a second
evaluation from the mutated state returns the same value (idempotent). -/
theorem C1_every_drift (fuel k : Nat) (t : TaskState) (now : DateTime)
    (hty : t.type = "every") (hf : validUnit t.frequency = true) (hp : 1 ≤ t.period)
    (hoff : t.offset = 0) (hsv : t.start_date.Valid) (hk : 1 ≤ k)
    (hlc : t.last_completed = (applyPeriod t.frequency t.period)^[k] t.start_date)
    (hfuel : k + 1 ≤ fuel) :
    getNextDueDate fuel t now
      = some (.ok (some ((applyPeriod t.frequency t.period)^[k + 1] t.start_date)),
          (applyPeriod t.frequency t.period)^[k] t.start_date)
    ∧ t.last_completed.toMicro
        < ((applyPeriod t.frequency t.period)^[k + 1] t.start_date).toMicro
    ∧ (∀ m : Nat,
        t.last_completed.toMicro
            < ((applyPeriod t.frequency t.period)^[m] t.start_date).toMicro →
        ((applyPeriod t.frequency t.period)^[k + 1] t.start_date).toMicro
          ≤ ((applyPeriod t.frequency t.period)^[m] t.start_date).toMicro)
    ∧ getNextDueDate fuel
        { t with start_date := (applyPeriod t.frequency t.period)^[k] t.start_date } now
      = some (.ok (some ((applyPeriod t.frequency t.period)^[k + 1] t.start_date)),
          (applyPeriod t.frequency t.period)^[k] t.start_date) := by
  have hstep : applyPeriod t.frequency t.period
        ((applyPeriod t.frequency t.period)^[k] t.start_date)
      = (applyPeriod t.frequency t.period)^[k + 1] t.start_date :=
    (Function.iterate_succ_apply' (applyPeriod t.frequency t.period) k t.start_date).symm
  refine ⟨?_, ?_, ?_, ?_⟩
  · rw [getNextDueDate_every fuel t now hty, hlc,
      catchUp_aligned t.frequency hf t.period hp k t.start_date hsv fuel (by omega)]
    dsimp only
    rw [addPeriodOffset_ok _ _ _ hf, hstep]
    dsimp only
    rw [offsetFinish_some, hoff, DateTime.addDays_zero]
  · rw [hlc]
    exact applyPeriod_iterate_lt t.frequency hf t.period hp t.start_date hsv k (k + 1)
      (by omega)
  · intro m hm
    rw [hlc] at hm
    rcases Nat.lt_or_ge k m with hkm | hkm
    · exact applyPeriod_iterate_le t.frequency hf t.period hp t.start_date hsv (k + 1) m
        (by omega)
    · exfalso
      have := applyPeriod_iterate_le t.frequency hf t.period hp t.start_date hsv m k hkm
      omega
  · have hev := getNextDueDate_every fuel
      { t with start_date := (applyPeriod t.frequency t.period)^[k] t.start_date } now hty
    rw [hev]
    dsimp only
    rw [hlc]
    have hstop := catchUp_stop t.frequency t.period
      ((applyPeriod t.frequency t.period)^[k] t.start_date) fuel
      ((applyPeriod t.frequency t.period)^[k] t.start_date) (by omega)
    rw [hstop]
    dsimp only
    rw [addPeriodOffset_ok _ _ _ hf, hstep]
    dsimp only
    rw [offsetFinish_some, hoff, DateTime.addDays_zero]

/-- Concrete witness for C1: a weekly `every` rule anchored at 2024-01-01
with `last_completed = 2024-01-15` (two whole periods later) is due
2024-01-22, and the anchor is caught up to 2024-01-15. -/
theorem C1_every_drift_witness :
    getNextDueDate 3
        ⟨⟨⟨2024, 1, 1⟩, 0⟩, ⟨⟨2024, 1, 15⟩, 0⟩, "every", "days", 7, 1, 0, 0,
          none, none, none, none, false, none⟩
        ⟨⟨2024, 1, 20⟩, 0⟩
      = some (.ok (some ((applyPeriod "days" 7)^[3] ⟨⟨2024, 1, 1⟩, 0⟩)),
          (applyPeriod "days" 7)^[2] ⟨⟨2024, 1, 1⟩, 0⟩)
    ∧ (applyPeriod "days" 7)^[3] (⟨⟨2024, 1, 1⟩, 0⟩ : DateTime) = ⟨⟨2024, 1, 22⟩, 0⟩ := by
  have h := C1_every_drift 3 2
    ⟨⟨⟨2024, 1, 1⟩, 0⟩, ⟨⟨2024, 1, 15⟩, 0⟩, "every", "days", 7, 1, 0, 0,
      none, none, none, none, false, none⟩
    ⟨⟨2024, 1, 20⟩, 0⟩ rfl (by decide) (by decide) rfl (by decide) (by decide)
    (by decide) (by decide)
  exact ⟨h.1, by decide⟩

/-- Counterexample to C1 as stated: with anchor 2024-01-01, weekly period
and `last_completed = 2024-01-16` (between anchors), the code returns
2024-01-29, although 2024-01-22 is anchor-aligned, strictly greater than
`last_completed`, and strictly smaller than the returned value — so the
returned due date is not the smallest anchor-aligned timestamp strictly
greater than `last_completed`. -/
theorem C1_counterexample :
    getNextDueDate 9
        ⟨⟨⟨2024, 1, 1⟩, 0⟩, ⟨⟨2024, 1, 16⟩, 0⟩, "every", "days", 7, 1, 0, 0,
          none, none, none, none, false, none⟩
        ⟨⟨2024, 1, 20⟩, 0⟩
      = some (.ok (some ⟨⟨2024, 1, 29⟩, 0⟩), ⟨⟨2024, 1, 22⟩, 0⟩)
    ∧ (applyPeriod "days" 7)^[3] (⟨⟨2024, 1, 1⟩, 0⟩ : DateTime) = ⟨⟨2024, 1, 22⟩, 0⟩
    ∧ (⟨⟨2024, 1, 16⟩, 0⟩ : DateTime).toMicro < (⟨⟨2024, 1, 22⟩, 0⟩ : DateTime).toMicro
    ∧ (⟨⟨2024, 1, 22⟩, 0⟩ : DateTime).toMicro < (⟨⟨2024, 1, 29⟩, 0⟩ : DateTime).toMicro := by
  refine ⟨by decide, by decide, by decide, by decide⟩



theorem getNextDueDate_ok_some (fuel : Nat) (t : TaskState) (now : DateTime)
    (r : Option DateTime) (s' : DateTime)
    (h : getNextDueDate fuel t now = some (.ok r, s')) : r ≠ none := by
  unfold getNextDueDate getNextDueDateCore at h
  split_ifs at h with h1 h2 h3 <;> (try dsimp only at h)
  · cases hA : addPeriodOffset t.last_completed t.frequency t.period with
    | error e0 =>
      rw [hA] at h
      simp at h
    | ok d =>
      rw [hA] at h
      simp only [offsetFinish_some, Option.some.injEq, Prod.mk.injEq, Except.ok.injEq] at h
      rw [← h.1]
      simp
  · cases hC : catchUp t.frequency t.period t.last_completed fuel t.start_date with
    | none => rw [hC] at h; simp at h
    | some res =>
      rw [hC] at h
      try dsimp only at h
      cases res with
      | error pr =>
        obtain ⟨e0, s0⟩ := pr
        try dsimp only at h
        simp at h
      | ok s0 =>
        try dsimp only at h
        cases hA : addPeriodOffset s0 t.frequency t.period with
        | error e0 =>
          rw [hA] at h
          simp at h
        | ok d =>
          rw [hA] at h
          try dsimp only at h
          simp only [offsetFinish_some, Option.some.injEq, Prod.mk.injEq, Except.ok.injEq] at h
          rw [← h.1]
          simp
  · cases hL : scheduledLoop now t.start_date.usec t.schedule_day t.schedule fuel
        t.last_completed.date.year t.last_completed.date.month
        (get_nth_weekday_of_month t.start_date.usec t.last_completed.date.year
          t.last_completed.date.month t.schedule_day t.schedule) with
    | none => rw [hL] at h; simp at h
    | some dd =>
      rw [hL] at h
      try dsimp only at h
      cases dd with
      | none =>
        simp only [offsetFinish_none] at h
        simp at h
      | some d =>
        simp only [offsetFinish_some, Option.some.injEq, Prod.mk.injEq, Except.ok.injEq] at h
        rw [← h.1]
        simp
  · simp only [offsetFinish_some, Option.some.injEq, Prod.mk.injEq, Except.ok.injEq] at h
    rw [← h.1]
    simp

/-- C10: when the scheduled month-search finishes with no candidate, the
final offset step receives Python `None` and the evaluation raises
`TypeError` instead of returning a null due date; the refresh propagates
the error, and no successful evaluation ever returns a null due date, so
the null-due-date branch of `update_state` is unreachable from an
exhausted scheduled search. -/
theorem C10_exhausted_raises (fuel : Nat) (t : TaskState) (now : DateTime)
    (hty : t.type = "scheduled")
    (hL : scheduledLoop now t.start_date.usec t.schedule_day t.schedule fuel
        t.last_completed.date.year t.last_completed.date.month
        (get_nth_weekday_of_month t.start_date.usec t.last_completed.date.year
          t.last_completed.date.month t.schedule_day t.schedule) = some none) :
    getNextDueDate fuel t now = some (.error .typeError, t.start_date)
    ∧ updateState fuel t now
        = some (.error (.typeError, { t with last_updated := some now }))
    ∧ (∀ (fl : Nat) (u : TaskState) (n : DateTime) (r : Option DateTime) (s2 : DateTime),
        getNextDueDate fl u n = some (.ok r, s2) → r ≠ none) := by
  have hmain : getNextDueDate fuel t now = some (.error .typeError, t.start_date) := by
    rw [getNextDueDate_scheduled fuel t now hty, hL]
    rfl
  refine ⟨hmain, ?_, getNextDueDate_ok_some⟩
  have hG : getNextDueDate fuel { t with last_updated := some now } now
      = some (.error .typeError, t.start_date) := by
    rw [getNextDueDate_scheduled fuel { t with last_updated := some now } now hty]
    dsimp only
    rw [hL]
    rfl
  have := updateState_of_error fuel t now .typeError t.start_date hG
  rw [this]

/-- Concrete witness for C10: a `scheduled` rule with the (unsupported)
ordinal `-1` exhausts immediately and the refresh raises `TypeError`. -/
theorem C10_exhausted_raises_witness :
    getNextDueDate 24
        ⟨⟨⟨2024, 1, 1⟩, 0⟩, ⟨⟨2024, 2, 10⟩, 0⟩, "scheduled", "days", 1, -1, 0, 0,
          none, none, none, none, false, none⟩
        ⟨⟨2024, 2, 15⟩, 0⟩
      = some (.error .typeError, ⟨⟨2024, 1, 1⟩, 0⟩)
    ∧ updateState 24
        ⟨⟨⟨2024, 1, 1⟩, 0⟩, ⟨⟨2024, 2, 10⟩, 0⟩, "scheduled", "days", 1, -1, 0, 0,
          none, none, none, none, false, none⟩
        ⟨⟨2024, 2, 15⟩, 0⟩
      = some (.error (.typeError,
          ⟨⟨⟨2024, 1, 1⟩, 0⟩, ⟨⟨2024, 2, 10⟩, 0⟩, "scheduled", "days", 1, -1, 0, 0,
            none, some ⟨⟨2024, 2, 15⟩, 0⟩, none, none, false, none⟩)) := by
  have h := C10_exhausted_raises 24
    ⟨⟨⟨2024, 1, 1⟩, 0⟩, ⟨⟨2024, 2, 10⟩, 0⟩, "scheduled", "days", 1, -1, 0, 0,
      none, none, none, none, false, none⟩
    ⟨⟨2024, 2, 15⟩, 0⟩ rfl (by decide)
  exact ⟨h.1, h.2.1⟩



/-- Concrete witness for the amended C6: the error state equals the old
state with only `last_updated` rewritten. -/
theorem C6_error_state_witness :
    (⟨⟨⟨2024, 1, 1⟩, 0⟩, ⟨⟨2024, 1, 10⟩, 0⟩, "after", "fortnights", 7, 1, 0, 0,
        none, some ⟨⟨2024, 1, 15⟩, 0⟩, none, none, false, none⟩ : TaskState)
      = { (⟨⟨⟨2024, 1, 1⟩, 0⟩, ⟨⟨2024, 1, 10⟩, 0⟩, "after", "fortnights", 7, 1, 0, 0,
            none, some ⟨⟨2024, 1, 2⟩, 0⟩, none, none, false, none⟩ : TaskState)
          with last_updated := some ⟨⟨2024, 1, 15⟩, 0⟩ } :=
  C6_error_state 1
    ⟨⟨⟨2024, 1, 1⟩, 0⟩, ⟨⟨2024, 1, 10⟩, 0⟩, "after", "fortnights", 7, 1, 0, 0,
      none, some ⟨⟨2024, 1, 2⟩, 0⟩, none, none, false, none⟩
    ⟨⟨2024, 1, 15⟩, 0⟩ .valueError
    ⟨⟨⟨2024, 1, 1⟩, 0⟩, ⟨⟨2024, 1, 10⟩, 0⟩, "after", "fortnights", 7, 1, 0, 0,
      none, some ⟨⟨2024, 1, 15⟩, 0⟩, none, none, false, none⟩
    (by decide)

/-- C2 evaluation at the failing input: the first Monday of February 2024
resolves to February 5 as specified, but ordinal `-1` (the last Monday,
which is February 26: the 26th is a Monday and the 27th-29th are not)
returns `None` — the code never resolves negative ordinals, because the
backward week shift lands in an earlier month and is discarded. -/
theorem C2_negative_ordinal_eval :
    get_nth_weekday_of_month 0 2024 2 0 1 = some ⟨⟨2024, 2, 5⟩, 0⟩
    ∧ get_nth_weekday_of_month 0 2024 2 0 (-1) = none
    ∧ Date.weekday ⟨2024, 2, 26⟩ = 0
    ∧ daysInMonth 2024 2 = 29
    ∧ Date.weekday ⟨2024, 2, 27⟩ ≠ 0
    ∧ Date.weekday ⟨2024, 2, 28⟩ ≠ 0
    ∧ Date.weekday ⟨2024, 2, 29⟩ ≠ 0 := by
  refine ⟨by decide, by decide, by decide, by decide, by decide, by decide, by decide⟩

/-- C3 evaluation at the failing input: a `scheduled` rule asking for the
5th Monday with `last_completed` in February 2024 (which has no 5th
Monday) makes the initial resolution fail; the search loop exits instead
of advancing the month, and the evaluation raises `TypeError` — although
advancing as the claim (and the code's own comment) requires would find
the 5th Monday of April 2024 (April 29), which lies after `now`. -/
theorem C3_no_advance_on_failure_eval :
    get_nth_weekday_of_month 32400000000 2024 2 0 5 = none
    ∧ getNextDueDate 24
        ⟨⟨⟨2024, 1, 1⟩, 32400000000⟩, ⟨⟨2024, 2, 10⟩, 0⟩, "scheduled", "days", 1, 5, 0, 0,
          none, none, none, none, false, none⟩
        ⟨⟨2024, 2, 15⟩, 0⟩
      = some (.error .typeError, ⟨⟨2024, 1, 1⟩, 32400000000⟩)
    ∧ get_nth_weekday_of_month 32400000000 2024 3 0 5 = none
    ∧ get_nth_weekday_of_month 32400000000 2024 4 0 5 = some ⟨⟨2024, 4, 29⟩, 32400000000⟩
    ∧ (⟨⟨2024, 2, 15⟩, 0⟩ : DateTime).toMicro
        < (⟨⟨2024, 4, 29⟩, 32400000000⟩ : DateTime).toMicro := by
  refine ⟨by decide, by decide, by decide, by decide, by decide⟩

/-- C8 evaluation at the failing input: a 7-day `after` task completed
2024-01-10 refreshes (at `now` = 2024-01-15) to a due date of 2024-01-17;
restoring a fresh state from the exposed snapshot and refreshing with the
same `now` yields 2024-01-08 instead, because the restore step writes the
snapshot's `last_completed` into `start_date` and the snapshot's
`start_date` into `due_date`, and never restores `last_completed`. -/
theorem C8_roundtrip_eval :
    updateState 1
        ⟨⟨⟨2024, 1, 1⟩, 0⟩, ⟨⟨2024, 1, 10⟩, 0⟩, "after", "days", 7, 1, 0, 0,
          none, none, none, none, false, none⟩
        ⟨⟨2024, 1, 15⟩, 0⟩
      = some (.ok ⟨⟨⟨2024, 1, 1⟩, 0⟩, ⟨⟨2024, 1, 10⟩, 0⟩, "after", "days", 7, 1, 0, 0,
          some ⟨⟨2024, 1, 17⟩, 0⟩, some ⟨⟨2024, 1, 15⟩, 0⟩, some 2, some 2, false, some 0⟩)
    ∧ updateState 1
        (restoreState
          ⟨⟨⟨2024, 1, 1⟩, 0⟩, ⟨⟨2024, 1, 1⟩, 0⟩, "after", "days", 7, 1, 0, 0,
            none, none, none, none, false, none⟩
          (extraStateAttributes
            ⟨⟨⟨2024, 1, 1⟩, 0⟩, ⟨⟨2024, 1, 10⟩, 0⟩, "after", "days", 7, 1, 0, 0,
              some ⟨⟨2024, 1, 17⟩, 0⟩, some ⟨⟨2024, 1, 15⟩, 0⟩, some 2, some 2, false,
              some 0⟩))
        ⟨⟨2024, 1, 15⟩, 0⟩
      = some (.ok ⟨⟨⟨2024, 1, 10⟩, 0⟩, ⟨⟨2024, 1, 1⟩, 0⟩, "after", "days", 7, 1, 0, 0,
          some ⟨⟨2024, 1, 8⟩, 0⟩, some ⟨⟨2024, 1, 15⟩, 0⟩, some (-7), some (-7), true,
          some 7⟩)
    ∧ (some (⟨⟨2024, 1, 8⟩, 0⟩ : DateTime) ≠ some (⟨⟨2024, 1, 17⟩, 0⟩ : DateTime)) := by
  refine ⟨by decide, by decide, by decide⟩

end TaskAssistant
